import Mathlib

/-!
# Verification of the `bin` package binary decoder (`decoder.go`)

A shallow embedding of the repository's binary deserialization engine:
the byte cursor (`Decoder`), the primitive little-endian readers, the
unsigned-varint codec, length-prefixed blobs and strings, and the
reflection-driven type dispatch (`value`) together with the record decoder
(`decodeStruct`) and its field-metadata protocol (skip / optional /
binary-extension / sizeof fields).

Go bytes are modelled as `Nat` values (below 256 on real inputs); Go's
`uint64`→`int` conversions are modelled explicitly as two's-complement casts
(`toInt64`). Functions that can `panic` in Go return the `panicked`
constructor of `DecodeResult`. Every reader returns its result together with
the cursor state it leaves behind, so that cursor-position-on-failure
behaviour is observable.
-/

/-- The byte cursor: `type Decoder struct { data []byte; pos int }`
(decoder.go:65-68). -/
structure Decoder where
  data : List Nat
  pos : Nat
deriving DecidableEq

/-- `func NewDecoder(data []byte) *Decoder` (decoder.go:70-74). -/
def NewDecoder (data : List Nat) : Decoder := Decoder.mk data 0

/-- `func (d *Decoder) remaining() int { return len(d.data) - d.pos }`
(decoder.go:692-694). -/
def Decoder.remaining (d : Decoder) : Nat := d.data.length - d.pos

/-- `func (d *Decoder) hasRemaining() bool` (decoder.go:696-698). -/
def Decoder.hasRemaining (d : Decoder) : Bool := d.remaining > 0

/-- The byte at offset `i` from the read position (`d.data[d.pos+i]`). The
fixed-width readers below only use it after checking `remaining`, so the
out-of-bounds default 0 is never observed on the success paths. -/
def Decoder.byteAt (d : Decoder) (i : Nat) : Nat := d.data.getD (d.pos + i) 0

/-- The `TypeSize` table of fixed byte widths (decoder.go:24-62). -/
def TypeSize.Byte : Nat := 1
def TypeSize.Bool : Nat := 1
def TypeSize.Uint16 : Nat := 2
def TypeSize.Uint32 : Nat := 4
def TypeSize.Uint64 : Nat := 8

/-- Decode errors. The Go code returns `error` values built with
`fmt.Errorf`; each constructor models one of those format strings, keeping
the numeric arguments so that underrun errors report requested vs available
byte counts:
* `byteRequired r`     = "required [1] byte, remaining [r]" (ReadByte, decoder.go:494)
* `required t n r`     = "t required [n] bytes, remaining [r]" (fixed-width readers)
* `varIntBufferSize`   = ErrVarIntBufferSize (decoder.go:398)
* `byteArrayMissing l m` = "byte array: varlen=l, missing m bytes" (decoder.go:481)
* `isPresent e`        = "decode: ... isPresent, e" (decoder.go:112)
* `readBool e`         = "readBool, e" (decoder.go:515) -/
inductive DErr : Type where
  | byteRequired (remaining : Nat)
  | required (typeName : String) (needed remaining : Nat)
  | varIntBufferSize
  | byteArrayMissing (varlen : Nat) (missing : Int)
  | isPresent (inner : DErr)
  | readBool (inner : DErr)
deriving DecidableEq

/-- Result of a decode step: success, a returned `error`, or a Go `panic`
(carrying the panic message). -/
inductive DecodeResult (α : Type) : Type where
  | ok (val : α)
  | fail (err : DErr)
  | panicked (msg : String)
deriving DecidableEq

/-- Go's `int8(b)` two's-complement reinterpretation of a byte. -/
def toInt8 (n : Nat) : Int := if n < 2 ^ 7 then (n : Int) else (n : Int) - 2 ^ 8

/-- Go's `int16(n)` two's-complement reinterpretation of a `uint16`. -/
def toInt16 (n : Nat) : Int := if n < 2 ^ 15 then (n : Int) else (n : Int) - 2 ^ 16

/-- Go's `int32(n)` two's-complement reinterpretation of a `uint32`. -/
def toInt32 (n : Nat) : Int := if n < 2 ^ 31 then (n : Int) else (n : Int) - 2 ^ 32

/-- Go's `int64(n)` / `int(n)` (64-bit platform) two's-complement
reinterpretation of a `uint64`. -/
def toInt64 (n : Nat) : Int := if n < 2 ^ 63 then (n : Int) else (n : Int) - 2 ^ 64

/-- `func (d *Decoder) ReadByte() (out byte, err error)` (decoder.go:492-504).
Fails without advancing when no byte remains. -/
def Decoder.ReadByte (d : Decoder) : DecodeResult Nat × Decoder :=
  if d.remaining < TypeSize.Byte then (.fail (.byteRequired d.remaining), d)
  else (.ok (d.byteAt 0), Decoder.mk d.data (d.pos + 1))

/-- `func (d *Decoder) ReadBool() (out bool, err error)` (decoder.go:506-523):
a bounds check, then one byte, `0` = false, any nonzero = true. (The inner
`ReadByte` cannot fail after the bounds check, so the "readBool," wrapping
branch is unreachable but kept.) -/
def Decoder.ReadBool (d : Decoder) : DecodeResult Bool × Decoder :=
  if d.remaining < TypeSize.Bool then (.fail (.required "bool" TypeSize.Bool d.remaining), d)
  else
    match d.ReadByte with
    | (.ok b, d1) => (.ok (b != 0), d1)
    | (.fail e, d1) => (.fail (.readBool e), d1)
    | (.panicked m, d1) => (.panicked m, d1)

/-- `func (d *Decoder) ReadUint8()` (decoder.go:525-528): alias of ReadByte. -/
def Decoder.ReadUint8 (d : Decoder) : DecodeResult Nat × Decoder := d.ReadByte

/-- `func (d *Decoder) ReadInt8()` (decoder.go:530-537): `int8(b)`. -/
def Decoder.ReadInt8 (d : Decoder) : DecodeResult Int × Decoder :=
  match d.ReadByte with
  | (.ok b, d1) => (.ok (toInt8 b), d1)
  | (.fail e, d1) => (.fail e, d1)
  | (.panicked m, d1) => (.panicked m, d1)

/-- `func (d *Decoder) ReadUint16()` (decoder.go:539-551):
`binary.LittleEndian.Uint16(d.data[d.pos:])`, advancing 2 bytes on success
and leaving the position unchanged on underrun. -/
def Decoder.ReadUint16 (d : Decoder) : DecodeResult Nat × Decoder :=
  if d.remaining < TypeSize.Uint16 then
    (.fail (.required "uint16" TypeSize.Uint16 d.remaining), d)
  else
    (.ok (d.byteAt 0 ||| (d.byteAt 1 <<< 8)), Decoder.mk d.data (d.pos + TypeSize.Uint16))

/-- `func (d *Decoder) ReadInt16()` (decoder.go:553-560): `int16(ReadUint16)`. -/
def Decoder.ReadInt16 (d : Decoder) : DecodeResult Int × Decoder :=
  match d.ReadUint16 with
  | (.ok n, d1) => (.ok (toInt16 n), d1)
  | (.fail e, d1) => (.fail e, d1)
  | (.panicked m, d1) => (.panicked m, d1)

/-- `func (d *Decoder) ReadUint32()` (decoder.go:571-583): little-endian,
4 bytes, underrun leaves the position unchanged. -/
def Decoder.ReadUint32 (d : Decoder) : DecodeResult Nat × Decoder :=
  if d.remaining < TypeSize.Uint32 then
    (.fail (.required "uint32" TypeSize.Uint32 d.remaining), d)
  else
    (.ok (d.byteAt 0 ||| (d.byteAt 1 <<< 8) ||| (d.byteAt 2 <<< 16) ||| (d.byteAt 3 <<< 24)),
      Decoder.mk d.data (d.pos + TypeSize.Uint32))

/-- `func (d *Decoder) ReadInt32()` (decoder.go:585-592): `int32(ReadUint32)`. -/
def Decoder.ReadInt32 (d : Decoder) : DecodeResult Int × Decoder :=
  match d.ReadUint32 with
  | (.ok n, d1) => (.ok (toInt32 n), d1)
  | (.fail e, d1) => (.fail e, d1)
  | (.panicked m, d1) => (.panicked m, d1)

/-- `func (d *Decoder) ReadUint64()` (decoder.go:594-607): little-endian,
8 bytes, underrun leaves the position unchanged. -/
def Decoder.ReadUint64 (d : Decoder) : DecodeResult Nat × Decoder :=
  if d.remaining < TypeSize.Uint64 then
    (.fail (.required "uint64" TypeSize.Uint64 d.remaining), d)
  else
    (.ok (d.byteAt 0 ||| (d.byteAt 1 <<< 8) ||| (d.byteAt 2 <<< 16) ||| (d.byteAt 3 <<< 24) |||
          (d.byteAt 4 <<< 32) ||| (d.byteAt 5 <<< 40) ||| (d.byteAt 6 <<< 48) ||| (d.byteAt 7 <<< 56)),
      Decoder.mk d.data (d.pos + TypeSize.Uint64))

/-- `func (d *Decoder) ReadInt64()` (decoder.go:562-569): `int64(ReadUint64)`. -/
def Decoder.ReadInt64 (d : Decoder) : DecodeResult Int × Decoder :=
  match d.ReadUint64 with
  | (.ok n, d1) => (.ok (toInt64 n), d1)
  | (.fail e, d1) => (.fail e, d1)
  | (.panicked m, d1) => (.panicked m, d1)

/-- Go's `encoding/binary.Uvarint` loop: 7-bit little-end-first groups while
the continuation (high) bit is set. Returns the decoded `uint64` and the
byte count read: 0 when the buffer ends before a terminal byte, negative
(`-(i+1)`) on 64-bit overflow. Accumulation wraps modulo `2^64` exactly as
the Go `uint64` shifts do. -/
def goUvarintAux : List Nat → Nat → Nat → Nat → Nat × Int
  | [], _, _, _ => (0, 0)
  | b :: rest, i, x, s =>
    if i = 10 then (0, -((i : Int) + 1))
    else if b < 0x80 then
      if i = 9 && b > 1 then (0, -((i : Int) + 1))
      else ((x ||| (b <<< s)) % 2 ^ 64, (i : Int) + 1)
    else goUvarintAux rest (i + 1) ((x ||| ((b &&& 0x7F) <<< s)) % 2 ^ 64) (s + 7)

/-- `binary.Uvarint(buf)` (used at decoder.go:401). -/
def goUvarint (buf : List Nat) : Nat × Int := goUvarintAux buf 0 0 0

/-- `func (d *Decoder) ReadUvarint64()` (decoder.go:400-410): runs
`binary.Uvarint` on `d.data[d.pos:]`; `read <= 0` is ErrVarIntBufferSize
with the position unchanged, otherwise the position advances by `read`. -/
def Decoder.ReadUvarint64 (d : Decoder) : DecodeResult Nat × Decoder :=
  let lr := goUvarint (d.data.drop d.pos)
  if lr.2 ≤ 0 then (.fail .varIntBufferSize, d)
  else (.ok lr.1, Decoder.mk d.data (d.pos + lr.2.toNat))

/-- Panic message of a Go slice expression with out-of-range bounds
(`d.data[d.pos : d.pos+int(l)]` with a negative `int(l)`). -/
def sliceBoundsPanicMsg : String := "runtime error: slice bounds out of range"

/-- Go's wrapping `int64` arithmetic: the two's-complement value of an
(exact) integer, reducing modulo `2^64` into `[-2^63, 2^63)`. Every `int`
addition and subtraction in Go wraps this way. -/
def int64Wrap (x : Int) : Int := ((x + 2 ^ 63) % 2 ^ 64) - 2 ^ 63

/-- `func (d *Decoder) ReadByteArray()` (decoder.go:473-490): an unsigned
varint length prefix `l`, then a length check written
`len(d.data) < d.pos+int(l)` on native ints: `int(l)` is the two's-complement
cast of `l` and the sum `d.pos+int(l)` itself wraps in `int64`, so whenever
the wrapped sum is negative (`l ≥ 2^63`, or `d.pos+int(l)` overflowing
`int64` for `l` just below `2^63`) the check passes vacuously and the slice
expression `d.data[d.pos : d.pos+int(l)]` panics. Otherwise the raw bytes
follow and `d.pos += int(l)` lands on the wrapped sum. On the "missing
bytes" error the position stays advanced past the prefix; the reported
missing count `d.pos+int(l)-len(d.data)` is the same wrapping arithmetic. -/
def Decoder.ReadByteArray (d : Decoder) : DecodeResult (List Nat) × Decoder :=
  match d.ReadUvarint64 with
  | (.fail e, d1) => (.fail e, d1)
  | (.panicked m, d1) => (.panicked m, d1)
  | (.ok l, d1) =>
    let hi : Int := int64Wrap ((d1.pos : Int) + toInt64 l)
    if (d1.data.length : Int) < hi then
      (.fail (.byteArrayMissing l (int64Wrap (hi - (d1.data.length : Int)))), d1)
    else if hi < (d1.pos : Int) then (.panicked sliceBoundsPanicMsg, d1)
    else (.ok ((d1.data.drop d1.pos).take (hi - (d1.pos : Int)).toNat), Decoder.mk d1.data hi.toNat)

/-- `func (d *Decoder) ReadString()` (decoder.go:683-690): a length-prefixed
blob whose bytes are kept verbatim (`string(data)` in Go copies the bytes
without any UTF-8 validation), so the "strict" string reader never fails on
ill-formed UTF-8. -/
def Decoder.ReadString (d : Decoder) : DecodeResult (List Nat) × Decoder :=
  match d.ReadByteArray with
  | (.ok data, d1) => (.ok data, d1)
  | (.fail e, d1) => (.fail e, d1)
  | (.panicked m, d1) => (.panicked m, d1)

/-- A decoded Go value, as populated through `reflectationless` setters:
`SetUint` stores a `uint64` (`uintV`), `SetInt` a sign-extended `int64`
(`intV`), `SetString` the raw string bytes (`strV`); arrays, slices and
structs hold their elements/fields in order. -/
inductive GoValue : Type where
  | uintV (n : Nat)
  | intV (i : Int)
  | boolV (b : Bool)
  | strV (bytes : List Nat)
  | arrV (elems : List GoValue)
  | sliceV (elems : List GoValue)
  | structV (fields : List (String × GoValue))

/-- Modelled from the spec: the per-field metadata of the Field Descriptor
(spec §3) as produced by `parseFieldTag` (not under src/) and by
`reflect.StructField`: the field tag flags `Skip`, `Optional`,
`BinaryExtension` and `Sizeof` (empty string = not a size source, matching
the in-src test `fieldTag.Sizeof != ""`), plus the field name and Go's
`v.CanSet()` (false for unexported fields), both consumed by
`decodeStruct` (decoder.go:312-374). -/
structure FieldMeta where
  name : String
  Skip : Bool
  Optional : Bool
  BinaryExtension : Bool
  Sizeof : String
  canSet : Bool

mutual
/-- Target shapes, standing for the `reflect.Kind` dispatch of `value`
(decoder.go:167-300): scalar kinds, fixed arrays, variable-length slices and
records. `custom` stands for a target whose type implements the
`UnmarshalerBinary` interface (decoder.go:20-22); it carries the type's zero
value (`reflect.Zero`) and its `UnmarshalBinary` method. -/
inductive Shape : Type where
  | u8 | u16 | u32 | u64
  | i8 | i16 | i32 | i64
  | boolS
  | strS
  | arr (n : Nat) (elem : Shape)
  | slice (elem : Shape)
  | strukt (fields : Fields)
  | custom (zero : GoValue) (unmarshal : Decoder → DecodeResult GoValue × Decoder)

inductive Fields : Type where
  | nil
  | cons (meta : FieldMeta) (shape : Shape) (rest : Fields)
end

mutual
/-- `reflect.Zero` of a shape: the value a field keeps when it is skipped,
absent (optional presence byte 0) or an unreached extension field. -/
def zeroValue : Shape → GoValue
  | .u8 | .u16 | .u32 | .u64 => .uintV 0
  | .i8 | .i16 | .i32 | .i64 => .intV 0
  | .boolS => .boolV false
  | .strS => .strV []
  | .arr n e => .arrV (List.replicate n (zeroValue e))
  | .slice _ => .sliceV []
  | .strukt fs => .structV (zeroFields fs)
  | .custom z _ => z

def zeroFields : Fields → List (String × GoValue)
  | .nil => []
  | .cons m sh rest => (m.name, zeroValue sh) :: zeroFields rest
end

/-- Modelled from the spec: the per-call Decode Option (spec §3,
"`{ optional: bool, explicit_length: Option<uint> }`"). The `Option` type
itself is not under src/; its field `OptionalField` and the methods
`isOptional` / `hasSizeOfSlice` / `getSizeOfSlice` / `setSizeOfSlice` are
reconstructed from the in-src call sites (decoder.go:109, 272-273, 342, 347).
The explicit length is an `Int`, not a `uint`, because the in-src call sites
store the result of `sizeof` (a native int, possibly negative) and read it
back into a native `int l` (decoder.go:271-273, 365, 372). -/
structure DecodeOption where
  OptionalField : Bool
  sizeOfSlice : Option Int

def DecodeOption.isOptional (o : DecodeOption) : Bool := o.OptionalField
def DecodeOption.hasSizeOfSlice (o : DecodeOption) : Bool := o.sizeOfSlice.isSome
def DecodeOption.getSizeOfSlice (o : DecodeOption) : Int := o.sizeOfSlice.getD 0
def DecodeOption.setSizeOfSlice (o : DecodeOption) (s : Int) : DecodeOption :=
  DecodeOption.mk o.OptionalField (some s)

/-- The `&Option{}` default (no presence byte, no explicit length); also what
`value` substitutes for a nil option (decoder.go:95-97). -/
def defaultOption : DecodeOption := DecodeOption.mk false none

/-- Whether the target's type implements `UnmarshalerBinary`, i.e. whether
`indirect` (decoder.go:728-794) returns a non-nil unmarshaler (and with it
the zero `reflect.Value` in place of the unwrapped target). -/
def Shape.isCustom : Shape → Bool
  | .custom _ _ => true
  | _ => false

/-- `func sizeof(t reflect.Type, v reflect.Value) int` (decoder.go:379-396).
Signed integer kinds return `int(v.Int())` unchanged (negative values
included); unsigned kinds return `int(v.Uint())` with a negative result of
the `uint64`→`int` conversion (value ≥ 2^63) clamped to 0. Any other kind
panics ("sizeof field "), modelled as `none`. -/
def sizeof (t : Shape) (v : GoValue) : Option Int :=
  match t with
  | .i8 | .i16 | .i32 | .i64 =>
    match v with
    | .intV i => some i
    | _ => none
  | .u8 | .u16 | .u32 | .u64 =>
    match v with
    | .uintV n =>
      let x := toInt64 n
      some (if x < 0 then 0 else x)
    | _ => none
  | _ => none

/-- Panic message of `reflect.Value.Type` called on the zero `reflect.Value`.
`indirect` (decoder.go:728-794) returns `(u, reflect.Value{})` as soon as it
finds an `UnmarshalerBinary` (decoder.go:780-784), and `value` immediately
evaluates `rvType := rv.Type()` (decoder.go:100), which panics on that zero
value — before the presence byte is read and before the
`unmarshaler != nil` branch (decoder.go:160-165) can run. -/
def typePanicMsg : String := "reflect: call of reflect.Value.Type on zero Value"

/-- The schema-ordering panic of `decodeStruct` (decoder.go:321), with the
problematic field name `%q`-quoted. -/
def schemaPanicMsg (fieldName : String) : String :=
  "the `bin:\"binary_extension\"` tags must be packed together at the end of struct fields, problematic field \"" ++ fieldName ++ "\""

/-- Panic message of `reflect.MakeSlice` with a negative length
(decoder.go:284 when `l` is negative). -/
def makeSlicePanicMsg : String := "reflect.MakeSlice: negative len"

/-- Panic message of the `sizeof` default branch (decoder.go:394). -/
def sizeofPanicMsg : String := "sizeof field "

mutual
/-- `func (d *Decoder) value(rv reflect.Value, option *Option) error`
(decoder.go:94-303), entered with the option already non-nil
(decoder.go:95-97). Line 99 runs `indirect`: for a `custom` target it finds
the `UnmarshalerBinary` and hands back the zero `reflect.Value`, so line
100's `rvType := rv.Type()` panics (see `typePanicMsg`); for every other
target `indirect` resolves to the target itself. Then the optional presence
byte is handled (decoder.go:109-124): failure to read it is wrapped, a zero
byte stores `reflect.Zero(rvType)` and stops after that single byte, and a
nonzero byte falls through to the kind dispatch (`valueBody`). -/
def value (s : Shape) (opt : DecodeOption) (d : Decoder) :
    DecodeResult GoValue × Decoder :=
  if s.isCustom then (.panicked typePanicMsg, d)
  else
    if opt.isOptional then
      match d.ReadByte with
      | (.ok isPresentByte, d1) =>
        if isPresentByte = 0 then (.ok (zeroValue s), d1)
        else valueBody s opt d1
      | (.fail e, d1) => (.fail (.isPresent e), d1)
      | (.panicked m, d1) => (.panicked m, d1)
    else valueBody s opt d
termination_by (sizeOf s, 2)

/-- The two kind switches of `value` (decoder.go:167-300): scalars delegate
to the matching primitive reader; fixed arrays decode their `Len()` elements
each with a nil option (decoder.go:258-269); slices take the element count
from `option.getSizeOfSlice()` when set, otherwise from a uvarint prefix,
materialize the slice via `reflect.MakeSlice` (which panics on a negative
native-int count) and decode elementwise with nil options
(decoder.go:270-289); structs delegate to `decodeStruct`
(decoder.go:291-296). The `custom` case mirrors the unreachable
line-160 branch (the rv.Type() panic in `value` always precedes it). -/
def valueBody (s : Shape) (opt : DecodeOption) (d : Decoder) :
    DecodeResult GoValue × Decoder :=
  match s with
  | .strS =>
    match d.ReadString with
    | (.ok bs, d1) => (.ok (.strV bs), d1)
    | (.fail e, d1) => (.fail e, d1)
    | (.panicked m, d1) => (.panicked m, d1)
  | .u8 =>
    match d.ReadByte with
    | (.ok n, d1) => (.ok (.uintV n), d1)
    | (.fail e, d1) => (.fail e, d1)
    | (.panicked m, d1) => (.panicked m, d1)
  | .i8 =>
    match d.ReadInt8 with
    | (.ok i, d1) => (.ok (.intV i), d1)
    | (.fail e, d1) => (.fail e, d1)
    | (.panicked m, d1) => (.panicked m, d1)
  | .i16 =>
    match d.ReadInt16 with
    | (.ok i, d1) => (.ok (.intV i), d1)
    | (.fail e, d1) => (.fail e, d1)
    | (.panicked m, d1) => (.panicked m, d1)
  | .i32 =>
    match d.ReadInt32 with
    | (.ok i, d1) => (.ok (.intV i), d1)
    | (.fail e, d1) => (.fail e, d1)
    | (.panicked m, d1) => (.panicked m, d1)
  | .i64 =>
    match d.ReadInt64 with
    | (.ok i, d1) => (.ok (.intV i), d1)
    | (.fail e, d1) => (.fail e, d1)
    | (.panicked m, d1) => (.panicked m, d1)
  | .u16 =>
    match d.ReadUint16 with
    | (.ok n, d1) => (.ok (.uintV n), d1)
    | (.fail e, d1) => (.fail e, d1)
    | (.panicked m, d1) => (.panicked m, d1)
  | .u32 =>
    match d.ReadUint32 with
    | (.ok n, d1) => (.ok (.uintV n), d1)
    | (.fail e, d1) => (.fail e, d1)
    | (.panicked m, d1) => (.panicked m, d1)
  | .u64 =>
    match d.ReadUint64 with
    | (.ok n, d1) => (.ok (.uintV n), d1)
    | (.fail e, d1) => (.fail e, d1)
    | (.panicked m, d1) => (.panicked m, d1)
  | .boolS =>
    match d.ReadBool with
    | (.ok b, d1) => (.ok (.boolV b), d1)
    | (.fail e, d1) => (.fail e, d1)
    | (.panicked m, d1) => (.panicked m, d1)
  | .arr n e =>
    match decodeElems e n [] d with
    | (.ok vs, d1) => (.ok (.arrV vs), d1)
    | (.fail e1, d1) => (.fail e1, d1)
    | (.panicked m, d1) => (.panicked m, d1)
  | .slice e =>
    if opt.hasSizeOfSlice then
      let l : Int := opt.getSizeOfSlice
      if l < 0 then (.panicked makeSlicePanicMsg, d)
      else
        match decodeElems e l.toNat [] d with
        | (.ok vs, d1) => (.ok (.sliceV vs), d1)
        | (.fail e1, d1) => (.fail e1, d1)
        | (.panicked m, d1) => (.panicked m, d1)
    else
      match d.ReadUvarint64 with
      | (.fail e1, d1) => (.fail e1, d1)
      | (.panicked m, d1) => (.panicked m, d1)
      | (.ok len, d1) =>
        let l : Int := toInt64 len
        if l < 0 then (.panicked makeSlicePanicMsg, d1)
        else
          match decodeElems e l.toNat [] d1 with
          | (.ok vs, d2) => (.ok (.sliceV vs), d2)
          | (.fail e1, d2) => (.fail e1, d2)
          | (.panicked m, d2) => (.panicked m, d2)
  | .strukt fs =>
    match decodeStructFields fs false [] [] d with
    | (.ok flds, d1) => (.ok (.structV flds), d1)
    | (.fail e1, d1) => (.fail e1, d1)
    | (.panicked m, d1) => (.panicked m, d1)
  | .custom _ _ => (.panicked typePanicMsg, d)
termination_by (sizeOf s, 1)

/-- The element loops of the array and slice branches (decoder.go:264-268,
285-289): `n` elements in order, each by a recursive
`decodeWithOption(..., nil)`, aborting on the first failure. -/
def decodeElems (e : Shape) (n : Nat) (acc : List GoValue) (d : Decoder) :
    DecodeResult (List GoValue) × Decoder :=
  match n with
  | 0 => (.ok acc.reverse, d)
  | n1 + 1 =>
    match value e defaultOption d with
    | (.ok v, d1) => decodeElems e n1 (v :: acc) d1
    | (.fail e1, d1) => (.fail e1, d1)
    | (.panicked m, d1) => (.panicked m, d1)
termination_by (sizeOf e, 3 + n)

/-- The field loop of `func (d *Decoder) decodeStruct` (decoder.go:307-377),
carried state: `seenExt` (= `seenBinaryExtensionField`), the
`sizeOfMap` (most recent binding first, later bindings shadow earlier ones
like Go map assignment) and the decoded fields so far (reversed). Per field,
in source order: `Skip` fields are passed over untouched; a non-extension
field after an extension field panics (schema error); an extension field
with an exhausted cursor is left at its default; settable fields not named
"_" are decoded via `value` with an option carrying `Optional` and any
recorded size for this field's name, and, when the field is a size source
(`Sizeof` tag), its decoded value is recorded through `sizeof` after a
successful decode. Unsettable or "_" fields are left at their defaults. -/
def decodeStructFields (fs : Fields) (seenExt : Bool) (szMap : List (String × Int))
    (acc : List (String × GoValue)) (d : Decoder) :
    DecodeResult (List (String × GoValue)) × Decoder :=
  match fs with
  | .nil => (.ok acc.reverse, d)
  | .cons m sh rest =>
    if m.Skip then
      decodeStructFields rest seenExt szMap ((m.name, zeroValue sh) :: acc) d
    else if !m.BinaryExtension && seenExt then
      (.panicked (schemaPanicMsg m.name), d)
    else
      let seenExt1 := seenExt || m.BinaryExtension
      if m.BinaryExtension && d.remaining ≤ 0 then
        decodeStructFields rest seenExt1 szMap ((m.name, zeroValue sh) :: acc) d
      else if m.canSet && m.name ≠ "_" then
        let opt1 :=
          match List.lookup m.name szMap with
          | some sVal => defaultOption.setSizeOfSlice sVal
          | none => defaultOption
        let opt2 := if m.Optional then DecodeOption.mk true opt1.sizeOfSlice else opt1
        match value sh opt2 d with
        | (.fail e, d1) => (.fail e, d1)
        | (.panicked msg, d1) => (.panicked msg, d1)
        | (.ok v, d1) =>
          if m.Sizeof ≠ "" then
            match sizeof sh v with
            | some size =>
              decodeStructFields rest seenExt1 ((m.Sizeof, size) :: szMap)
                ((m.name, v) :: acc) d1
            | none => (.panicked sizeofPanicMsg, d1)
          else
            decodeStructFields rest seenExt1 szMap ((m.name, v) :: acc) d1
      else
        decodeStructFields rest seenExt1 szMap ((m.name, zeroValue sh) :: acc) d
termination_by (sizeOf fs, 2)
end

/-- `func (d *Decoder) decodeStruct(rt reflect.Type, rv reflect.Value) error`
(decoder.go:307-377): the field loop started with an empty size map and no
extension field seen. -/
def decodeStruct (fs : Fields) (d : Decoder) :
    DecodeResult (List (String × GoValue)) × Decoder :=
  decodeStructFields fs false [] [] d

/-- `func (d *Decoder) decodeWithOption(v interface{}, option *Option)`
(decoder.go:80-93): defers to `value` (a nil option is replaced by the
default inside `value`, modelled by passing `defaultOption`). -/
def decodeWithOption (s : Shape) (opt : DecodeOption) (d : Decoder) :
    DecodeResult GoValue × Decoder :=
  value s opt d

/-- `func (d *Decoder) Decode(v interface{}) error` (decoder.go:76-78):
a decode with a nil option. -/
def Decode (s : Shape) (d : Decoder) : DecodeResult GoValue × Decoder :=
  value s defaultOption d

/-- Whether a byte is a UTF-8 continuation byte (Go `utf8`: `locb ≤ b ≤ hicb`,
i.e. `0x80..0xBF`). -/
def utf8Cont (b : Nat) : Bool := 0x80 ≤ b && b ≤ 0xBF

/-- Go `utf8`'s accept range for the second byte of a three-byte sequence:
`0xE0` starts at `0xA0` (no overlong forms), `0xED` stops at `0x9F`
(no surrogates), the rest take any continuation byte. -/
def utf8Accept2 (b0 b1 : Nat) : Bool :=
  if b0 = 0xE0 then 0xA0 ≤ b1 && b1 ≤ 0xBF
  else if b0 = 0xED then 0x80 ≤ b1 && b1 ≤ 0x9F
  else utf8Cont b1

/-- Go `utf8`'s accept range for the second byte of a four-byte sequence:
`0xF0` starts at `0x90` (no overlong forms), `0xF4` stops at `0x8F`
(no code points above U+10FFFF), the rest take any continuation byte. -/
def utf8Accept3 (b0 b1 : Nat) : Bool :=
  if b0 = 0xF0 then 0x90 ≤ b1 && b1 ≤ 0xBF
  else if b0 = 0xF4 then 0x80 ≤ b1 && b1 ≤ 0x8F
  else utf8Cont b1

/-- `utf8.RuneError` = U+FFFD, the Unicode replacement character — also the
literal rune `'�'` that `fixUtf` (decoder.go:713-718) substitutes. -/
def runeError : Nat := 0xFFFD

/-- Go's `utf8.DecodeRuneInString` on `b0 :: rest`: the decoded rune and the
number of bytes consumed. Every ill-formed, truncated, overlong, surrogate
or out-of-range sequence yields `(RuneError, 1)`. -/
def utf8DecodeFirst (b0 : Nat) (rest : List Nat) : Nat × Nat :=
  if b0 < 0x80 then (b0, 1)
  else if b0 < 0xC2 then (runeError, 1)
  else if b0 ≤ 0xDF then
    match rest with
    | b1 :: _ =>
      if utf8Cont b1 then (((b0 &&& 0x1F) <<< 6) ||| (b1 &&& 0x3F), 2)
      else (runeError, 1)
    | [] => (runeError, 1)
  else if b0 ≤ 0xEF then
    match rest with
    | b1 :: b2 :: _ =>
      if utf8Accept2 b0 b1 && utf8Cont b2 then
        (((b0 &&& 0x0F) <<< 12) ||| ((b1 &&& 0x3F) <<< 6) ||| (b2 &&& 0x3F), 3)
      else (runeError, 1)
    | _ => (runeError, 1)
  else if b0 ≤ 0xF4 then
    match rest with
    | b1 :: b2 :: b3 :: _ =>
      if utf8Accept3 b0 b1 && utf8Cont b2 && utf8Cont b3 then
        (((b0 &&& 0x07) <<< 18) ||| ((b1 &&& 0x3F) <<< 12) ||| ((b2 &&& 0x3F) <<< 6) |||
          (b3 &&& 0x3F), 4)
      else (runeError, 1)
    | _ => (runeError, 1)
  else (runeError, 1)

/-- Go's `utf8.EncodeRune`: the canonical UTF-8 bytes of a rune (only
applied to runes produced by `utf8DecodeFirst`, which are never surrogates
or out of range). -/
def utf8EncodeRune (r : Nat) : List Nat :=
  if r < 0x80 then [r]
  else if r < 0x800 then [0xC0 ||| (r >>> 6), 0x80 ||| (r &&& 0x3F)]
  else if r < 0x10000 then
    [0xE0 ||| (r >>> 12), 0x80 ||| ((r >>> 6) &&& 0x3F), 0x80 ||| (r &&& 0x3F)]
  else
    [0xF0 ||| (r >>> 18), 0x80 ||| ((r >>> 12) &&& 0x3F), 0x80 ||| ((r >>> 6) &&& 0x3F),
      0x80 ||| (r &&& 0x3F)]

/-- `strings.Map(fixUtf, string(data))` (decoder.go:676, 713-718): the string
is traversed rune by rune and re-encoded. `fixUtf` maps `utf8.RuneError` to
`'�'` — the same code point — so every well-formed sequence is kept verbatim
and every ill-formed position (decoded as `(RuneError, 1)`) is replaced by
the three-byte encoding of U+FFFD. -/
def utf8Sanitize : List Nat → List Nat
  | [] => []
  | b :: rest =>
    let rs := utf8DecodeFirst b rest
    utf8EncodeRune rs.1 ++ utf8Sanitize (rest.drop (rs.2 - 1))
termination_by l => l.length
decreasing_by simp [List.length_drop]; omega

/-- `func (d *Decoder) SafeReadUTF8String()` (decoder.go:674-681): the
length-prefixed blob, with ill-formed UTF-8 sequences replaced by the
replacement character; never fails on account of the bytes' content. -/
def Decoder.SafeReadUTF8String (d : Decoder) : DecodeResult (List Nat) × Decoder :=
  match d.ReadByteArray with
  | (.ok data, d1) => (.ok (utf8Sanitize data), d1)
  | (.fail e, d1) => (.fail e, d1)
  | (.panicked m, d1) => (.panicked m, d1)

/-- All fields of a (tail of a) record carry the `Skip` tag. -/
def Fields.allSkip : Fields → Prop
  | .nil => True
  | .cons m _ rest => m.Skip = true ∧ rest.allSkip

/-- The record of C1: `[Count: uint8 (sizeof "Items"), Items: []uint8]`. -/
def rec1 : Fields :=
  .cons (FieldMeta.mk "Count" false false false "Items" true) .u8
    (.cons (FieldMeta.mk "Items" false false false "" true) (.slice .u8) .nil)

/-- An `UnmarshalBinary` implementation (C2's failing input): reads one byte
into the value, the way a self-decoding type would consume the shared cursor. -/
def c2Unmarshal : Decoder → DecodeResult GoValue × Decoder := fun d =>
  match d.ReadByte with
  | (.ok b, d1) => (.ok (.uintV b), d1)
  | (.fail e, d1) => (.fail e, d1)
  | (.panicked m, d1) => (.panicked m, d1)

/-- A target type implementing `UnmarshalerBinary` (C2). -/
def c2Shape : Shape := .custom (.uintV 0) c2Unmarshal

/-- The record of C3's counterexample:
`[Count: int8 (sizeof "Items"), Items: []uint8]` — a signed size source. -/
def rec3 : Fields :=
  .cons (FieldMeta.mk "Count" false false false "Items" true) .i8
    (.cons (FieldMeta.mk "Items" false false false "" true) (.slice .u8) .nil)

/-- The unsigned variant for C3:
`[Count: uint64 (sizeof "Items"), Items: []uint8]`. -/
def rec3u : Fields :=
  .cons (FieldMeta.mk "Count" false false false "Items" true) .u64
    (.cons (FieldMeta.mk "Items" false false false "" true) (.slice .u8) .nil)

/-- The record of C4: `[A: uint32 (binary_extension), B: uint32]` — a
non-extension field after an extension field. -/
def rec4 : Fields :=
  .cons (FieldMeta.mk "A" false false true "" true) .u32
    (.cons (FieldMeta.mk "B" false false false "" true) .u32 .nil)

/-- The record of C5: `[A: uint32, B: uint32 (binary_extension)]`. -/
def rec5 : Fields :=
  .cons (FieldMeta.mk "A" false false false "" true) .u32
    (.cons (FieldMeta.mk "B" false false true "" true) .u32 .nil)

/-- An `UnmarshalBinary` implementation that consumes nothing (C6's
counterexample). -/
def c6Unmarshal : Decoder → DecodeResult GoValue × Decoder := fun d => (.ok (.uintV 7), d)

/-- A target type implementing `UnmarshalerBinary` (C6). -/
def c6Shape : Shape := .custom (.uintV 0) c6Unmarshal

/-- A Decode Option with the optional flag set (C6). -/
def c6Option : DecodeOption := DecodeOption.mk true none

/-- The extension-tail head field of C9's record: `A: uint32 (binary_extension)`. -/
def rec9head : FieldMeta := FieldMeta.mk "A" false false true "" true

/-- A single skip field, C9's witness tail. -/
def rec9skips : Fields := .cons (FieldMeta.mk "S" true false false "" true) .u8 .nil

/-- C10's counterexample buffer: the canonical 10-byte uvarint of `2^63`,
with no payload bytes after it. -/
def c10Buf : List Nat := [0x80, 0x80, 0x80, 0x80, 0x80, 0x80, 0x80, 0x80, 0x80, 0x01]

/-- Claim C1: decoding the record `[count: uint8 (size-source for "items"),
items: sequence<uint8>]` from bytes `[0x03, 0x01, 0x02, 0x03]` succeeds with
`count = 3`, `items = [1,2,3]`, consuming exactly 4 bytes — the element count
comes from the recorded size-source value, with no varint length prefix
before `items`. -/
theorem claim_C1 :
    decodeStruct rec1 (Decoder.mk [3, 1, 2, 3] 0) =
      (.ok [("Count", .uintV 3), ("Items", .sliceV [.uintV 1, .uintV 2, .uintV 3])],
        Decoder.mk [3, 1, 2, 3] 4) := by
  simp [decodeStruct, decodeStructFields, value, valueBody, rec1, Decoder.ReadByte,
    Decoder.remaining, Decoder.byteAt, TypeSize.Byte, DecodeOption.isOptional,
    DecodeOption.hasSizeOfSlice, DecodeOption.getSizeOfSlice, DecodeOption.setSizeOfSlice,
    defaultOption, Shape.isCustom, sizeof, toInt64, decodeElems, List.lookup]

/-- Claim C2 (code bug): for a target implementing `UnmarshalerBinary`, the
decoder panics (`reflect.Value.Type` on the zero `reflect.Value` handed back
by `indirect`) before the `UnmarshalBinary` branch can run — while the
implementation itself would succeed on the same cursor, reading one byte. -/
theorem claim_C2 :
    Decode c2Shape (Decoder.mk [42] 0) = (.panicked typePanicMsg, Decoder.mk [42] 0)
    ∧ c2Unmarshal (Decoder.mk [42] 0) = (.ok (.uintV 42), Decoder.mk [42] 1)
    ∧ (∀ v d1, (DecodeResult.panicked typePanicMsg : DecodeResult GoValue) ≠ .ok v
        ∧ (DecodeResult.panicked typePanicMsg : DecodeResult GoValue) ≠ .fail d1) := by
  refine ⟨?_, ?_, ?_⟩
  · simp [Decode, value, Shape.isCustom, c2Shape]
  · simp [c2Unmarshal, Decoder.ReadByte, Decoder.remaining, Decoder.byteAt, TypeSize.Byte]
  · intro v e
    exact ⟨(fun h => nomatch h), (fun h => nomatch h)⟩

/-- Claim C3, counterexample: with a signed (`int8`) size-source field
decoding `-1` (byte `0xFF`), the recorded count is `-1`, not `0`, and the
decode aborts in a `reflect.MakeSlice` panic rather than proceeding. -/
theorem claim_C3_counterexample :
    (decodeStruct rec3 (Decoder.mk [0xFF] 0)).fst = .panicked makeSlicePanicMsg
    ∧ sizeof .i8 (.intV (-1)) = some (-1)
    ∧ (∀ v, (DecodeResult.panicked makeSlicePanicMsg :
        DecodeResult (List (String × GoValue))) ≠ .ok v) := by
  refine ⟨?_, rfl, fun v h => nomatch h⟩
  simp [decodeStruct, decodeStructFields, value, valueBody, rec3, Decoder.ReadByte,
    Decoder.ReadInt8, Decoder.remaining, Decoder.byteAt, TypeSize.Byte,
    DecodeOption.isOptional, DecodeOption.hasSizeOfSlice, DecodeOption.getSizeOfSlice,
    DecodeOption.setSizeOfSlice, defaultOption, Shape.isCustom, sizeof, toInt8,
    decodeElems, List.lookup]

/-- Claim C3 as amended: a size-source value is recorded as Go records it:
signed sources record `int(v.Int())` unchanged — negative values included —
while unsigned sources record `int(v.Uint())` clamped to 0 exactly when the
`uint64`→`int` conversion is negative (value ≥ 2^63); so a `uint64` source
holding `2^63` is recorded as count 0 and the linked slice decodes empty,
while a negative signed source later panics at `reflect.MakeSlice` (see the
counterexample). -/
theorem claim_C3 (i : Int) (n : Nat) :
    sizeof .i8 (.intV i) = some i
    ∧ sizeof .u64 (.uintV n) = some (if toInt64 n < 0 then 0 else toInt64 n)
    ∧ decodeStruct rec3u (Decoder.mk [0, 0, 0, 0, 0, 0, 0, 0x80] 0) =
        (.ok [("Count", .uintV (2 ^ 63)), ("Items", .sliceV [])],
          Decoder.mk [0, 0, 0, 0, 0, 0, 0, 0x80] 8) := by
  refine ⟨rfl, rfl, ?_⟩
  simp [decodeStruct, decodeStructFields, value, valueBody, rec3u, Decoder.ReadUint64,
    Decoder.remaining, Decoder.byteAt, TypeSize.Uint64, DecodeOption.isOptional,
    DecodeOption.hasSizeOfSlice, DecodeOption.getSizeOfSlice, DecodeOption.setSizeOfSlice,
    defaultOption, Shape.isCustom, sizeof, toInt64, decodeElems, List.lookup]

/-- Witness for C3's amended theorem at `i = -1`, `n = 2^63`. -/
theorem claim_C3_witness :
    sizeof .i8 (.intV (-1)) = some (-1)
    ∧ sizeof .u64 (.uintV (2 ^ 63)) =
        some (if toInt64 (2 ^ 63) < 0 then 0 else toInt64 (2 ^ 63))
    ∧ decodeStruct rec3u (Decoder.mk [0, 0, 0, 0, 0, 0, 0, 0x80] 0) =
        (.ok [("Count", .uintV (2 ^ 63)), ("Items", .sliceV [])],
          Decoder.mk [0, 0, 0, 0, 0, 0, 0, 0x80] 8) :=
  claim_C3 (-1) (2 ^ 63)

/-- Claim C4, counterexample: the schema violation in `rec4` does not abort
"regardless of the input bytes" — on the 1-byte buffer `[0x01]` the extension
field `A` itself fails with a data error (uint32 underrun) and that error is
returned; no panic occurs. -/
theorem claim_C4_counterexample :
    decodeStruct rec4 (Decoder.mk [1] 0) =
      (.fail (.required "uint32" 4 1), Decoder.mk [1] 0)
    ∧ (∀ m, (DecodeResult.fail (DErr.required "uint32" 4 1) :
        DecodeResult (List (String × GoValue))) ≠ .panicked m) := by
  refine ⟨?_, fun m h => nomatch h⟩
  simp [decodeStruct, decodeStructFields, value, valueBody, rec4, Decoder.ReadUint32,
    Decoder.remaining, Decoder.byteAt, TypeSize.Uint32, DecodeOption.isOptional,
    DecodeOption.hasSizeOfSlice, defaultOption, Shape.isCustom, List.lookup]

/-- Claim C4 as amended: decoding `rec4` (an extension field followed by a
non-extension field) aborts via the schema panic whenever control reaches the
offending field — i.e. whenever the extension field is skipped on an empty
cursor or decodes successfully (at least 4 bytes remaining); if the extension
field's own decode fails first, that data error is returned instead and no
panic occurs (see the counterexample). -/
theorem claim_C4 (d : Decoder) (h : d.remaining = 0 ∨ 4 ≤ d.remaining) :
    (decodeStruct rec4 d).fst = .panicked (schemaPanicMsg "B") := by
  rcases h with h | h
  · simp [decodeStruct, decodeStructFields, rec4, h]
  · have h4 : ¬ (d.remaining ≤ 0) := by omega
    have h5 : ¬ (d.remaining < TypeSize.Uint32) := by simp [TypeSize.Uint32]; omega
    simp [decodeStruct, decodeStructFields, value, valueBody, rec4, Decoder.ReadUint32,
      h4, h5, DecodeOption.isOptional, DecodeOption.hasSizeOfSlice, defaultOption,
      Shape.isCustom, List.lookup]

/-- Witness for C4's amended theorem: on the empty buffer the extension field
is skipped and the panic fires. -/
theorem claim_C4_witness :
    (decodeStruct rec4 (Decoder.mk [] 0)).fst = .panicked (schemaPanicMsg "B") :=
  claim_C4 (Decoder.mk [] 0) (Or.inl rfl)

/-- Claim C5: the record `[A: uint32, B: uint32 (binary_extension)]` decoded
from any 4-byte buffer succeeds with no error: `A` is the little-endian
uint32 of the 4 bytes, `B` stays at its zero value, and exactly 4 bytes are
consumed (the extension field sees an exhausted cursor). -/
theorem claim_C5 (b0 b1 b2 b3 : Nat) :
    decodeStruct rec5 (Decoder.mk [b0, b1, b2, b3] 0) =
      (.ok [("A", .uintV (b0 ||| (b1 <<< 8) ||| (b2 <<< 16) ||| (b3 <<< 24))),
        ("B", .uintV 0)], Decoder.mk [b0, b1, b2, b3] 4) := by
  simp [decodeStruct, decodeStructFields, value, valueBody, rec5, Decoder.ReadUint32,
    Decoder.remaining, Decoder.byteAt, TypeSize.Uint32, DecodeOption.isOptional,
    DecodeOption.hasSizeOfSlice, defaultOption, Shape.isCustom, List.lookup, zeroValue,
    List.getD]

/-- Witness for C5 on the concrete buffer `[1, 0, 0, 0]`. -/
theorem claim_C5_witness :
    decodeStruct rec5 (Decoder.mk [1, 0, 0, 0] 0) =
      (.ok [("A", .uintV (1 ||| (0 <<< 8) ||| (0 <<< 16) ||| (0 <<< 24))),
        ("B", .uintV 0)], Decoder.mk [1, 0, 0, 0] 4) :=
  claim_C5 1 0 0 0

/-- Claim C6, counterexample: a decode call with the optional flag set on a
target implementing `UnmarshalerBinary` does not consume the presence byte
and does not produce the zero value — it panics (the `rv.Type()` panic of
the self-decoding path) with the cursor untouched. -/
theorem claim_C6_counterexample :
    value c6Shape c6Option (Decoder.mk [0] 0) = (.panicked typePanicMsg, Decoder.mk [0] 0)
    ∧ (∀ v, (DecodeResult.panicked typePanicMsg : DecodeResult GoValue) ≠ .ok v) := by
  refine ⟨?_, fun v h => nomatch h⟩
  simp [value, Shape.isCustom, c6Shape]

/-- Claim C6 as amended: for every decode call with the optional flag set on
a target that does not implement `UnmarshalerBinary`: a presence byte of 0
sets the target to its zero value and consumes exactly that 1 byte; a
nonzero presence byte continues the decode (`valueBody`, the kind dispatch)
from position `pos + 1`, so a valid encoding consumes 1 byte plus the size
of the value's own encoding. -/
theorem claim_C6 (s : Shape) (opt : DecodeOption) (d : Decoder)
    (h1 : s.isCustom = false) (h2 : opt.isOptional = true) (h3 : 1 ≤ d.remaining) :
    (d.byteAt 0 = 0 →
      value s opt d = (.ok (zeroValue s), Decoder.mk d.data (d.pos + 1)))
    ∧ (d.byteAt 0 ≠ 0 →
      value s opt d = valueBody s opt (Decoder.mk d.data (d.pos + 1))) := by
  have hnb : ¬ (d.remaining < TypeSize.Byte) := by simp [TypeSize.Byte]; omega
  constructor <;> intro hb <;>
    simp [value, h1, h2, hb, Decoder.ReadByte, hnb]

/-- Witness for C6's amended theorem: a `uint8` target under the optional
flag, buffer `[0]`: the zero presence byte yields the zero value with 1 byte
consumed. -/
theorem claim_C6_witness :
    value .u8 c6Option (Decoder.mk [0] 0) = (.ok (zeroValue .u8), Decoder.mk [0] 1) :=
  (claim_C6 .u8 c6Option (Decoder.mk [0] 0) rfl rfl (by decide)).1 rfl

/-- Claim C7, counterexample: the strict string reader does not fail on
ill-formed UTF-8 — on the blob `[0x01, 0xFF]` (length 1, invalid byte 0xFF)
`ReadString` succeeds, returning the raw byte unchanged; no UTF-8 error
exists in the code. -/
theorem claim_C7_counterexample :
    Decoder.ReadString (Decoder.mk [1, 0xFF] 0) = (.ok [0xFF], Decoder.mk [1, 0xFF] 2)
    ∧ (∀ e, (DecodeResult.ok [0xFF] : DecodeResult (List Nat)) ≠ .fail e) :=
  ⟨rfl, fun _ h => nomatch h⟩

/-- Claim C7 as amended: whenever the length-prefixed blob itself decodes,
the lenient reader succeeds and substitutes the replacement character at
each ill-formed position (`utf8Sanitize`), and the strict reader also
succeeds, returning the blob's bytes verbatim with no UTF-8 validation —
it never raises an invalid-UTF-8 error. In particular the invalid byte
`0xFF` becomes `EF BF BD` under the lenient reader. -/
theorem claim_C7 (d d1 : Decoder) (bs : List Nat)
    (h : d.ReadByteArray = (.ok bs, d1)) :
    d.ReadString = (.ok bs, d1)
    ∧ d.SafeReadUTF8String = (.ok (utf8Sanitize bs), d1)
    ∧ utf8Sanitize [0xFF] = [0xEF, 0xBF, 0xBD] := by
  refine ⟨?_, ?_, ?_⟩
  · simp [Decoder.ReadString, h]
  · simp [Decoder.SafeReadUTF8String, h]
  · simp [utf8Sanitize, utf8DecodeFirst, utf8EncodeRune, runeError]
    decide

/-- Witness for C7's amended theorem at the blob `[0x01, 0xFF]`. -/
theorem claim_C7_witness :
    Decoder.ReadString (Decoder.mk [1, 0xFF] 0) = (.ok [0xFF], Decoder.mk [1, 0xFF] 2)
    ∧ Decoder.SafeReadUTF8String (Decoder.mk [1, 0xFF] 0) =
        (.ok (utf8Sanitize [0xFF]), Decoder.mk [1, 0xFF] 2)
    ∧ utf8Sanitize [0xFF] = [0xEF, 0xBF, 0xBD] :=
  claim_C7 (Decoder.mk [1, 0xFF] 0) (Decoder.mk [1, 0xFF] 2) [0xFF] rfl

/-- Claim C8: decoding a `uint64` from a buffer with 3 remaining bytes fails
with the underrun error reporting needed = 8 and available = 3, and the read
position is left exactly where it was. -/
theorem claim_C8 (d : Decoder) (h : d.remaining = 3) :
    d.ReadUint64 = (.fail (.required "uint64" 8 3), d) := by
  simp [Decoder.ReadUint64, TypeSize.Uint64, h]

/-- Witness for C8 on the concrete 3-byte buffer `[9, 9, 9]`. -/
theorem claim_C8_witness :
    Decoder.ReadUint64 (Decoder.mk [9, 9, 9] 0) =
      (.fail (.required "uint64" 8 3), Decoder.mk [9, 9, 9] 0) :=
  claim_C8 (Decoder.mk [9, 9, 9] 0) rfl

/-- A record tail consisting only of `Skip` fields is passed over untouched:
no cursor movement, every field at its zero value, regardless of the
extension flag already seen. -/
theorem decodeStructFields_allSkip :
    ∀ (fs : Fields), fs.allSkip →
    ∀ (seenExt : Bool) (szMap : List (String × Int)) (acc : List (String × GoValue))
      (d : Decoder),
    decodeStructFields fs seenExt szMap acc d = (.ok (acc.reverse ++ zeroFields fs), d)
  | .nil, _, seenExt, szMap, acc, d => by
    simp [decodeStructFields, zeroFields]
  | .cons m sh rest, h, seenExt, szMap, acc, d => by
    have ih := decodeStructFields_allSkip rest h.2 seenExt szMap
      ((m.name, zeroValue sh) :: acc) d
    simp [decodeStructFields, h.1, ih, zeroFields]

/-- Claim C9: in a record whose fields after the extension-tail field `A` are
all `Skip` fields, the skip check runs before the schema-ordering check, so
decoding never hits the extension-contiguity panic: on an empty buffer all
fields default with nothing consumed; on 1-3 bytes the extension field's own
uint32 underrun is returned as an ordinary error; on ≥ 4 bytes `A` decodes
and the skip fields stay at their defaults with no bytes consumed for them. -/
theorem claim_C9 (skips : Fields) (hs : skips.allSkip) (data : List Nat) :
    (data.length = 0 →
      decodeStruct (.cons rec9head .u32 skips) (Decoder.mk data 0) =
        (.ok (("A", .uintV 0) :: zeroFields skips), Decoder.mk data 0))
    ∧ (0 < data.length → data.length < 4 →
      decodeStruct (.cons rec9head .u32 skips) (Decoder.mk data 0) =
        (.fail (.required "uint32" 4 data.length), Decoder.mk data 0))
    ∧ (4 ≤ data.length →
      decodeStruct (.cons rec9head .u32 skips) (Decoder.mk data 0) =
        (.ok (("A", .uintV (data.getD 0 0 ||| (data.getD 1 0 <<< 8) |||
            (data.getD 2 0 <<< 16) ||| (data.getD 3 0 <<< 24))) :: zeroFields skips),
          Decoder.mk data 4)) := by
  refine ⟨?_, ?_, ?_⟩
  · intro h0
    have hr : Decoder.remaining (Decoder.mk data 0) = 0 := by
      simp [Decoder.remaining, h0]
    simp [decodeStruct, decodeStructFields, rec9head, hr,
      decodeStructFields_allSkip skips hs, zeroValue]
  · intro hlo hhi
    have hne : data ≠ [] := List.ne_nil_of_length_pos hlo
    simp [decodeStruct, decodeStructFields, value, valueBody, rec9head, hne, hlo, hhi,
      Decoder.remaining, Decoder.ReadUint32, TypeSize.Uint32, DecodeOption.isOptional,
      DecodeOption.hasSizeOfSlice, defaultOption, Shape.isCustom, List.lookup]
  · intro h4
    have hne : data ≠ [] := List.ne_nil_of_length_pos (by omega)
    have hge : ¬ (data.length < 4) := by omega
    simp [decodeStruct, decodeStructFields, value, valueBody, rec9head, hne, hge,
      Decoder.remaining, Decoder.ReadUint32, TypeSize.Uint32, Decoder.byteAt,
      DecodeOption.isOptional, DecodeOption.hasSizeOfSlice, defaultOption,
      Shape.isCustom, List.lookup, decodeStructFields_allSkip skips hs]

/-- Witness for C9: the record `[A: uint32 (binary_extension), S: uint8 (skip)]`
decoded from the empty buffer: no panic, both fields at their defaults,
nothing consumed. -/
theorem claim_C9_witness :
    decodeStruct (.cons rec9head .u32 rec9skips) (Decoder.mk [] 0) =
      (.ok (("A", .uintV 0) :: zeroFields rec9skips), Decoder.mk [] 0) :=
  (claim_C9 rec9skips ⟨rfl, trivial⟩ []).1 rfl

/-- Claim C10, counterexample: a well-formed 10-byte varint prefix decoding
to `l = 2^63` (with 0 < l bytes remaining) makes `ReadByteArray` panic at
the slice expression — `int(l)` is negative, the bounds check passes
vacuously — instead of returning an error. -/
theorem claim_C10_counterexample :
    Decoder.ReadByteArray (Decoder.mk c10Buf 0) =
      (.panicked sliceBoundsPanicMsg, Decoder.mk c10Buf 10)
    ∧ (∀ e, (DecodeResult.panicked sliceBoundsPanicMsg : DecodeResult (List Nat)) ≠
        .fail e) :=
  ⟨rfl, fun _ h => nomatch h⟩

/-- Claim C10 as amended: whenever the length prefix decodes to an `l` whose
`int64` sum with the post-prefix position does not overflow
(`pos + l < 2^63`, which also forces `int(l) = l ≥ 0`) and fewer than `l`
bytes remain after the prefix, `ReadByteArray` fails with the "missing
bytes" error and leaves the read position advanced exactly past the length
prefix (the cursor is not restored). When the wrapped sum `d.pos+int(l)` is
negative instead — `l ≥ 2^63` makes `int(l)` negative (see the
counterexample), and `pos + l ≥ 2^63` overflows `int64` — the bounds check
passes vacuously and the slice expression panics rather than returning the
error. -/
theorem claim_C10 (d d1 : Decoder) (l : Nat)
    (h : d.ReadUvarint64 = (.ok l, d1))
    (hs : (d1.pos : Int) + (l : Int) < 2 ^ 63)
    (hr : (d1.data.length : Int) < (d1.pos : Int) + (l : Int)) :
    d.ReadByteArray =
      (.fail (.byteArrayMissing l ((d1.pos : Int) + (l : Int) - (d1.data.length : Int))), d1) := by
  have hl : l < 2 ^ 63 := by omega
  have ht : toInt64 l = (l : Int) := by
    unfold toInt64
    exact if_pos hl
  have hw : int64Wrap ((d1.pos : Int) + (l : Int)) = (d1.pos : Int) + (l : Int) := by
    unfold int64Wrap
    omega
  have hm : int64Wrap ((d1.pos : Int) + (l : Int) - (d1.data.length : Int)) =
      (d1.pos : Int) + (l : Int) - (d1.data.length : Int) := by
    unfold int64Wrap
    omega
  simp [Decoder.ReadByteArray, h, ht, hw, hm, hr]

/-- Witness for C10's amended theorem: buffer `[2, 7]` — prefix `l = 2`, one
byte remaining: the error is returned with the position advanced to 1 (past
the prefix), not restored to 0. -/
theorem claim_C10_witness :
    Decoder.ReadByteArray (Decoder.mk [2, 7] 0) =
      (.fail (.byteArrayMissing 2 ((1 : Int) + (2 : Int) - (2 : Int))), Decoder.mk [2, 7] 1) :=
  claim_C10 (Decoder.mk [2, 7] 0) (Decoder.mk [2, 7] 1) 2 rfl (by decide) (by decide)
